import Mathlib

set_option autoImplicit false

/-! Shallow embedding of the python wrapper module
wrappers/python/indy_credx/types.py. Each wrapper class instance is a
PyObject: a python class tag plus the opaque handle of the native object it
wraps. The native binding functions live in the separate rust core, so the
wrapper model is parametrised over a Bindings record; parts of the core that
claims depend on and that are absent from the sources are modelled from the
spec, each marked in its doc comment. -/

/-- Python classes defined by the wrapper module types.py. -/
inductive PyClass where
  | CredentialDefinition
  | CredentialDefinitionPrivate
  | KeyCorrectnessProof
  | CredentialOffer
  | CredentialRequest
  | CredentialRequestMetadata
  | MasterSecret
  | Schema
  | Credential
  | PresentationRequest
  | Presentation
  deriving DecidableEq, Repr

/-- A wrapper object: a python instance of one of the classes of types.py,
holding an opaque handle into the native library. -/
structure PyObject where
  cls : PyClass
  handle : Nat
  deriving DecidableEq, Repr

/-- The entries built by bindings.CredentialProve.attribute and
bindings.CredentialProve.predicate in Presentation.create. -/
inductive CredentialProve where
  | attribute (idx : Nat) (referent : String) (reveal : Bool) (timestamp : Option Int)
  | predicate (idx : Nat) (referent : String) (timestamp : Option Int)
  deriving DecidableEq, Repr

/-- The sub-proof index carried by a CredentialProve entry. -/
def CredentialProve.idx : CredentialProve → Nat
  | .attribute i _ _ _ => i
  | .predicate i _ _ => i

/-- Insertion-ordered dictionary update, as in a python dict item assignment:
an existing key keeps its position and receives the new value, a new key is
appended at the end. -/
def dictSet {α β : Type} [DecidableEq α] : List (α × β) → α → β → List (α × β)
  | [], k, v => [(k, v)]
  | (k0, v0) :: rest, k, v =>
      if k0 = k then (k, v) :: rest else (k0, v0) :: dictSet rest k v

/-- Python dict lookup. -/
def dictGet {α β : Type} [DecidableEq α] : List (α × β) → α → Option β
  | [], _ => none
  | (k0, v0) :: rest, k => if k0 = k then some v0 else dictGet rest k

/-- Python membership test on a dict. -/
def dictContains {α β : Type} [DecidableEq α] (d : List (α × β)) (k : α) : Bool :=
  (dictGet d k).isSome

/-- The keys of a dict, in insertion order. -/
def dictKeys {α β : Type} (d : List (α × β)) : List α :=
  d.map Prod.fst

/-- The native binding functions used by types.py. Their behaviour lives in
the rust core and is opaque to the wrapper; each returns the handle of a newly
created native object (or a tuple of handles). -/
structure Bindings where
  credential_definition_from_json : String → Nat
  credential_definition_private_from_json : String → Nat
  key_correctness_proof_from_json : String → Nat
  credential_offer_from_json : String → Nat
  credential_request_from_json : String → Nat
  credential_request_metadata_from_json : String → Nat
  master_secret_from_json : String → Nat
  schema_from_json : String → Nat
  credential_from_json : String → Nat
  presentation_request_from_json : String → Nat
  presentation_from_json : String → Nat
  create_credential_definition :
    String → Nat → Option String → String → Bool → Nat × Nat × Nat
  create_credential_offer : String → Nat → Nat → Nat
  create_credential_request : String → Nat → Nat → String → Nat → Nat × Nat
  create_master_secret : Nat
  create_schema : String → String → String → List String → Option Nat → Nat
  create_credential :
    Nat → Nat → Nat → Nat → List (String × String) →
    Option (List (String × String)) → Option Unit → Nat
  process_credential : Nat → Nat → Nat → Nat → Option Unit → Nat
  create_presentation :
    Nat → List (String × String) → List Nat → List CredentialProve → Nat →
    List Nat → List Nat → Nat
  schema_get_id : Nat → String
  credential_definition_get_id : Nat → String

/-- CredentialDefinition.from_json of types.py. -/
def CredentialDefinition.from_json (B : Bindings) (value : String) : PyObject :=
  ⟨.CredentialDefinition, B.credential_definition_from_json value⟩

/-- CredentialDefinitionPrivate.from_json of types.py. -/
def CredentialDefinitionPrivate.from_json (B : Bindings) (value : String) : PyObject :=
  ⟨.CredentialDefinitionPrivate, B.credential_definition_private_from_json value⟩

/-- KeyCorrectnessProof.from_json of types.py. -/
def KeyCorrectnessProof.from_json (B : Bindings) (value : String) : PyObject :=
  ⟨.KeyCorrectnessProof, B.key_correctness_proof_from_json value⟩

/-- CredentialOffer.from_json of types.py. -/
def CredentialOffer.from_json (B : Bindings) (value : String) : PyObject :=
  ⟨.CredentialOffer, B.credential_offer_from_json value⟩

/-- CredentialRequest.from_json of types.py. -/
def CredentialRequest.from_json (B : Bindings) (value : String) : PyObject :=
  ⟨.CredentialRequest, B.credential_request_from_json value⟩

/-- CredentialRequestMetadata.from_json of types.py. -/
def CredentialRequestMetadata.from_json (B : Bindings) (value : String) : PyObject :=
  ⟨.CredentialRequestMetadata, B.credential_request_metadata_from_json value⟩

/-- MasterSecret.from_json of types.py. -/
def MasterSecret.from_json (B : Bindings) (value : String) : PyObject :=
  ⟨.MasterSecret, B.master_secret_from_json value⟩

/-- Schema.from_json of types.py. -/
def Schema.from_json (B : Bindings) (value : String) : PyObject :=
  ⟨.Schema, B.schema_from_json value⟩

/-- Credential.from_json exactly as written in types.py line 203: the body
wraps the deserialized handle in the CredentialDefinition class, although the
declared return annotation of the method is Credential. -/
def Credential.from_json (B : Bindings) (value : String) : PyObject :=
  ⟨.CredentialDefinition, B.credential_from_json value⟩

/-- PresentationRequest.from_json of types.py (string branch; a dict argument
is first dumped to its json string). -/
def PresentationRequest.from_json (B : Bindings) (value : String) : PyObject :=
  ⟨.PresentationRequest, B.presentation_request_from_json value⟩

/-- Presentation.from_json of types.py. -/
def Presentation.from_json (B : Bindings) (value : String) : PyObject :=
  ⟨.Presentation, B.presentation_from_json value⟩

/-- The isinstance dispatch used by the boundary constructors of types.py: a
string argument is first deserialized with the entity from_json, an object
argument is used as it is. -/
def resolveWith (from_json : String → PyObject) : String ⊕ PyObject → PyObject
  | .inl s => from_json s
  | .inr o => o

/-- CredentialDefinition.create of types.py. -/
def CredentialDefinition.create (B : Bindings) (origin_did : String)
    (schema : String ⊕ PyObject) (signature_type : String)
    (support_revocation : Bool) (tag : Option String) :
    PyObject × PyObject × PyObject :=
  let schema := resolveWith (Schema.from_json B) schema
  let r := B.create_credential_definition origin_did schema.handle tag
    signature_type support_revocation
  (⟨.CredentialDefinition, r.1⟩, ⟨.CredentialDefinitionPrivate, r.2.1⟩,
    ⟨.KeyCorrectnessProof, r.2.2⟩)

/-- CredentialOffer.create of types.py. -/
def CredentialOffer.create (B : Bindings) (schema_id : String)
    (cred_def key_proof : String ⊕ PyObject) : PyObject :=
  let cred_def := resolveWith (CredentialDefinition.from_json B) cred_def
  let key_proof := resolveWith (KeyCorrectnessProof.from_json B) key_proof
  ⟨.CredentialOffer,
    B.create_credential_offer schema_id cred_def.handle key_proof.handle⟩

/-- CredentialRequest.create of types.py. -/
def CredentialRequest.create (B : Bindings) (prover_did : String)
    (cred_def master_secret : String ⊕ PyObject) (master_secret_id : String)
    (cred_offer : String ⊕ PyObject) : PyObject × PyObject :=
  let cred_def := resolveWith (CredentialDefinition.from_json B) cred_def
  let master_secret := resolveWith (MasterSecret.from_json B) master_secret
  let cred_offer := resolveWith (CredentialOffer.from_json B) cred_offer
  let r := B.create_credential_request prover_did cred_def.handle
    master_secret.handle master_secret_id cred_offer.handle
  (⟨.CredentialRequest, r.1⟩, ⟨.CredentialRequestMetadata, r.2⟩)

/-- MasterSecret.create of types.py. -/
def MasterSecret.create (B : Bindings) : PyObject :=
  ⟨.MasterSecret, B.create_master_secret⟩

/-- Schema.create of types.py. -/
def Schema.create (B : Bindings) (origin_did name version : String)
    (attr_names : List String) (seq_no : Option Nat) : PyObject :=
  ⟨.Schema, B.create_schema origin_did name version attr_names seq_no⟩

/-- Credential.create of types.py. -/
def Credential.create (B : Bindings)
    (cred_def cred_def_private cred_offer cred_request : String ⊕ PyObject)
    (attr_raw_values : List (String × String))
    (attr_enc_values : Option (List (String × String))) : PyObject :=
  let cred_def := resolveWith (CredentialDefinition.from_json B) cred_def
  let cred_def_private :=
    resolveWith (CredentialDefinitionPrivate.from_json B) cred_def_private
  let cred_offer := resolveWith (CredentialOffer.from_json B) cred_offer
  let cred_request := resolveWith (CredentialRequest.from_json B) cred_request
  ⟨.Credential,
    B.create_credential cred_def.handle cred_def_private.handle
      cred_offer.handle cred_request.handle attr_raw_values attr_enc_values none⟩

/-- Credential.process of types.py, modelled with an explicit receiver state:
the method body never assigns to self, so the first component (the receiver
after the call) equals the receiver before the call; the second component is
the returned object, a fresh Credential wrapping the handle produced by
bindings.process_credential. -/
def Credential.process (B : Bindings) (self : PyObject)
    (cred_req_metadata master_secret cred_def : String ⊕ PyObject) :
    PyObject × PyObject :=
  let cred_req_metadata :=
    resolveWith (CredentialRequestMetadata.from_json B) cred_req_metadata
  let master_secret := resolveWith (MasterSecret.from_json B) master_secret
  let cred_def := resolveWith (CredentialDefinition.from_json B) cred_def
  (self,
    ⟨.Credential,
      B.process_credential self.handle cred_req_metadata.handle
        master_secret.handle cred_def.handle none⟩)

/-- Attribute selections of one credential in PresentCredentials: referent to
(reveal flag, timestamp). -/
abbrev AttrSel := List (String × (Bool × Option Int))

/-- Predicate selections of one credential in PresentCredentials: referent to
timestamp. -/
abbrev PredSel := List (String × Option Int)

instance : DecidableEq (PyObject × AttrSel × PredSel) := instDecidableEqProd

/-- The PresentCredentials accumulator of types.py: creds maps each selected
credential to its attribute and predicate selections, self_attest maps
attribute names to self-attested values. -/
structure PresentCredentials where
  creds : List (PyObject × (AttrSel × PredSel))
  self_attest : List (String × String)
  deriving DecidableEq, Repr

/-- A freshly constructed PresentCredentials: both dicts empty. -/
def PresentCredentials.empty : PresentCredentials := ⟨[], []⟩

/-- PresentCredentials.add_self_attested of types.py: when the mapping is
non-empty (python truthiness), self_attest is updated with its entries. -/
def PresentCredentials.add_self_attested (self : PresentCredentials)
    (attest : List (String × String)) : PresentCredentials :=
  if attest.isEmpty then self
  else
    { self with
      self_attest := attest.foldl (fun m kv => dictSet m kv.1 kv.2) self.self_attest }

/-- PresentCredentials.add_attributes of types.py: an empty referents sequence
returns immediately; otherwise the credential entry is created when absent and
each referent is assigned (reveal, timestamp) in the attribute dict of that
entry. -/
def PresentCredentials.add_attributes (self : PresentCredentials)
    (cred : PyObject) (referents : List String) (reveal : Bool)
    (timestamp : Option Int) : PresentCredentials :=
  if referents.isEmpty then self
  else
    let creds0 :=
      if dictContains self.creds cred then self.creds
      else dictSet self.creds cred (([], []) : AttrSel × PredSel)
    let creds1 := referents.foldl (fun cs reft =>
      let sel := (dictGet cs cred).getD ([], [])
      dictSet cs cred (dictSet sel.1 reft (reveal, timestamp), sel.2)) creds0
    { self with creds := creds1 }

/-- PresentCredentials.add_predicates of types.py: an empty referents sequence
returns immediately; otherwise the credential entry is created when absent and
each referent is assigned the timestamp in the predicate dict of that
entry. -/
def PresentCredentials.add_predicates (self : PresentCredentials)
    (cred : PyObject) (referents : List String) (timestamp : Option Int) :
    PresentCredentials :=
  if referents.isEmpty then self
  else
    let creds0 :=
      if dictContains self.creds cred then self.creds
      else dictSet self.creds cred (([], []) : AttrSel × PredSel)
    let creds1 := referents.foldl (fun cs reft =>
      let sel := (dictGet cs cred).getD ([], [])
      dictSet cs cred (sel.1, dictSet sel.2 reft timestamp)) creds0
    { self with creds := creds1 }

/-- The CredentialProve entries contributed by one creds entry of
PresentCredentials when it receives sub-proof index i: one attribute entry per
attribute referent, then one predicate entry per predicate referent, each
carrying i. -/
def provesOf (i : Nat) (entry : PyObject × (AttrSel × PredSel)) :
    List CredentialProve :=
  entry.2.1.map (fun a => CredentialProve.attribute i a.1 a.2.1 a.2.2) ++
    entry.2.2.map (fun p => CredentialProve.predicate i p.1 p.2)

/-- One iteration of the loop over present_creds.creds in Presentation.create:
idx is the current length of the creds list, the credential handle is
appended, and the CredentialProve entries of the entry are appended carrying
idx. -/
def presentStep (acc : List Nat × List CredentialProve)
    (entry : PyObject × (AttrSel × PredSel)) :
    List Nat × List CredentialProve :=
  (acc.1 ++ [entry.1.handle], acc.2 ++ provesOf acc.1.length entry)

/-- The creds and creds_prove lists accumulated by the loop of
Presentation.create. -/
def presentLists (entries : List (PyObject × (AttrSel × PredSel))) :
    List Nat × List CredentialProve :=
  entries.foldl presentStep ([], [])

/-- Presentation.create of types.py. -/
def Presentation.create (B : Bindings) (pres_req : String ⊕ PyObject)
    (present_creds : PresentCredentials) (master_secret : String ⊕ PyObject)
    (schemas cred_defs : List (String ⊕ PyObject)) : PyObject :=
  let pres_req := resolveWith (PresentationRequest.from_json B) pres_req
  let master_secret := resolveWith (MasterSecret.from_json B) master_secret
  let schemas :=
    schemas.map (fun s => (resolveWith (Schema.from_json B) s).handle)
  let cred_defs :=
    cred_defs.map (fun c => (resolveWith (CredentialDefinition.from_json B) c).handle)
  let lists := presentLists present_creds.creds
  ⟨.Presentation,
    B.create_presentation pres_req.handle present_creds.self_attest
      lists.1 lists.2 master_secret.handle schemas cred_defs⟩

/-- The proof entries contributed by consecutive creds entries, with sub-proof
indices counting on from n: the closed form of the creds_prove accumulation of
Presentation.create. -/
def provesFrom (n : Nat) : List (PyObject × (AttrSel × PredSel)) → List CredentialProve
  | [] => []
  | e :: rest => provesOf n e ++ provesFrom (n + 1) rest

/-- One call on a PresentCredentials accumulator. -/
inductive PCOp where
  | selfAtt (attest : List (String × String))
  | attrs (cred : PyObject) (referents : List String) (reveal : Bool)
      (timestamp : Option Int)
  | preds (cred : PyObject) (referents : List String) (timestamp : Option Int)

/-- Apply one accumulator call. -/
def applyOp (pc : PresentCredentials) : PCOp → PresentCredentials
  | .selfAtt a => pc.add_self_attested a
  | .attrs c r rv t => pc.add_attributes c r rv t
  | .preds c r t => pc.add_predicates c r t

/-- The accumulator obtained from a fresh PresentCredentials by a sequence of
calls. -/
def buildPC (ops : List PCOp) : PresentCredentials :=
  ops.foldl applyOp PresentCredentials.empty

/-- A concrete bindings instance used to evaluate the wrapper on closed
inputs: every native call returns the fixed handle h. -/
def bindingsK (h : Nat) : Bindings where
  credential_definition_from_json := fun _ => h
  credential_definition_private_from_json := fun _ => h
  key_correctness_proof_from_json := fun _ => h
  credential_offer_from_json := fun _ => h
  credential_request_from_json := fun _ => h
  credential_request_metadata_from_json := fun _ => h
  master_secret_from_json := fun _ => h
  schema_from_json := fun _ => h
  credential_from_json := fun _ => h
  presentation_request_from_json := fun _ => h
  presentation_from_json := fun _ => h
  create_credential_definition := fun _ _ _ _ _ => (h, h, h)
  create_credential_offer := fun _ _ _ => h
  create_credential_request := fun _ _ _ _ _ => (h, h)
  create_master_secret := h
  create_schema := fun _ _ _ _ _ => h
  create_credential := fun _ _ _ _ _ _ _ => h
  process_credential := fun _ _ _ _ _ => h
  create_presentation := fun _ _ _ _ _ _ _ => h
  schema_get_id := fun _ => "id"
  credential_definition_get_id := fun _ => "id"

/-! Spec-modelled fragments of the rust core. The sources of this repository
contain only the python wrapper; the native functions below decide some of the
claims, so they are modelled from the spec, faithful to its words. -/

/-- The defining data of a Schema as listed by the spec: issuer identifier,
name, version, ordered attribute names, optional sequence number. -/
structure SchemaData where
  origin_did : String
  name : String
  version : String
  attr_names : List String
  seq_no : Option Nat
  deriving DecidableEq, Repr

/-- The defining data of a CredentialDefinition identifier as listed by the
spec: issuer identifier, schema identifier, tag. -/
structure CredDefData where
  origin_did : String
  schema_id : String
  tag : String
  deriving DecidableEq, Repr

/-- Modelled from the spec: bindings.schema_get_id, absent from the sources.
The schema identifier is deterministically derived from the defining fields
issuer id, name and version. -/
def schema_get_id (s : SchemaData) : String :=
  s.origin_did ++ ":2:" ++ s.name ++ ":" ++ s.version

/-- Modelled from the spec: bindings.credential_definition_get_id, absent from
the sources. The credential definition identifier is deterministically derived
from the defining fields issuer id, schema id and tag. -/
def credential_definition_get_id (c : CredDefData) : String :=
  c.origin_did ++ ":3:CL:" ++ c.schema_id ++ ":" ++ c.tag

/-- Error kinds of the core that the claims mention. -/
inductive CredxError where
  | UnblindingError
  | UnknownCredentialDefinition
  deriving DecidableEq, Repr

/-- The data of a holder master secret: its single secret value. -/
structure MasterSecretData where
  value : Nat
  deriving DecidableEq, Repr

/-- The holder-side secrets paired with a CredentialRequest: the blinding
factor used when the request was created, and the nonce. -/
structure CredReqMetadataData where
  blinding_factor : Nat
  nonce : Nat
  deriving DecidableEq, Repr

/-- An issued credential as the unblinding step sees it: the master-secret
value and blinding factor of the originating request that its signature is
bound to, whether its signature is still blinded, and its attribute values. -/
structure CredentialData where
  bound_master_secret : Nat
  bound_blinding_factor : Nat
  blinded : Bool
  values : List (String × String)
  deriving DecidableEq, Repr

/-- Modelled from the spec: bindings.process_credential, the core unblinding
step, absent from the sources. The holder unblinds the signature using the
request metadata and master secret; it fails with UnblindingError when the
metadata or the master secret do not match the request that produced the
credential, and otherwise returns the fully unblinded credential. -/
def process_credential_core (cred : CredentialData) (md : CredReqMetadataData)
    (ms : MasterSecretData) : Except CredxError CredentialData :=
  if md.blinding_factor = cred.bound_blinding_factor ∧
      ms.value = cred.bound_master_secret then
    Except.ok { cred with blinded := false }
  else
    Except.error CredxError.UnblindingError

/-- A presentation as the verifier sees it: the schema and credential
definition identifiers its sub-proofs reference, and the outcome of the
aggregated proof check against the recomputed challenge, abstracted as a
boolean. -/
structure PresentationData where
  referenced_schema_ids : List String
  referenced_cred_def_ids : List String
  proof_valid : Bool
  deriving DecidableEq, Repr

/-- Modelled from the spec: presentation verification, absent from the
sources. It checks the aggregated proof against the supplied schemas and
credential definitions and returns a boolean; an invalid proof is the normal
negative result, and the only raised failure is UnknownCredentialDefinition,
raised exactly when a referenced credential definition or schema was not
supplied by the caller. -/
def verify_presentation (pres : PresentationData)
    (schema_ids cred_def_ids : List String) : Except CredxError Bool :=
  if (∀ i ∈ pres.referenced_schema_ids, i ∈ schema_ids) ∧
      (∀ i ∈ pres.referenced_cred_def_ids, i ∈ cred_def_ids) then
    Except.ok pres.proof_valid
  else
    Except.error CredxError.UnknownCredentialDefinition

/-! Helper lemmas about the dict operations and the Presentation.create
accumulation loop, shared by the claim theorems below. -/

/-- Setting a key leaves lookups of every other key unchanged. -/
theorem dictGet_dictSet_ne {α β : Type} [DecidableEq α] (d : List (α × β))
    (k other : α) (v : β) (h : other ≠ k) :
    dictGet (dictSet d k v) other = dictGet d other := by
  induction d with
  | nil => simp [dictSet, dictGet, Ne.symm h]
  | cons e rest ih =>
    obtain ⟨k0, v0⟩ := e
    by_cases he : k0 = k
    · subst he
      simp [dictSet, dictGet, Ne.symm h]
    · simp [dictSet, dictGet, he, ih]

/-- Folding a dict-updating step over a list leaves lookups unchanged at any
key the step never writes. -/
theorem dictGet_foldl_frame {α β γ : Type} [DecidableEq α] (l : List γ)
    (other : α) (g : List (α × β) → γ → List (α × β)) :
    ∀ d : List (α × β),
      (∀ cs r, r ∈ l → dictGet (g cs r) other = dictGet cs other) →
      dictGet (l.foldl g d) other = dictGet d other := by
  induction l with
  | nil => exact fun d _ => rfl
  | cons r rest ih =>
    intro d hg
    rw [List.foldl_cons,
      ih _ (fun cs x hx => hg cs x (List.mem_cons_of_mem _ hx)),
      hg _ _ (List.mem_cons_self _ _)]

/-- A key of the updated dict is the written key or a key of the original
dict. -/
theorem mem_dictKeys_dictSet {α β : Type} [DecidableEq α] (d : List (α × β))
    (k a : α) (v : β) :
    a ∈ dictKeys (dictSet d k v) → a = k ∨ a ∈ dictKeys d := by
  induction d with
  | nil =>
    intro h
    simp [dictSet, dictKeys] at h
    exact Or.inl h
  | cons e rest ih =>
    obtain ⟨k0, v0⟩ := e
    intro h
    by_cases he : k0 = k
    · subst he
      simp [dictSet, dictKeys] at h ⊢
      tauto
    · simp [dictSet, dictKeys, he] at h ⊢
      rcases h with h | h
      · exact Or.inr (Or.inl h)
      · rcases ih (by simpa [dictKeys] using h) with h1 | h1
        · exact Or.inl h1
        · exact Or.inr (Or.inr (by simpa [dictKeys] using h1))

/-- The keys of a non-empty dict: head key followed by the tail keys. -/
theorem dictKeys_cons {α β : Type} (e : α × β) (l : List (α × β)) :
    dictKeys (e :: l) = e.1 :: dictKeys l := rfl

/-- Updating a dict at a key preserves distinctness of the keys. -/
theorem nodup_dictKeys_dictSet {α β : Type} [DecidableEq α] (d : List (α × β))
    (k : α) (v : β) (h : (dictKeys d).Nodup) :
    (dictKeys (dictSet d k v)).Nodup := by
  induction d with
  | nil => simp [dictSet, dictKeys]
  | cons e rest ih =>
    obtain ⟨k0, v0⟩ := e
    rw [dictKeys_cons, List.nodup_cons] at h
    obtain ⟨hk0, hrest⟩ := h
    by_cases he : k0 = k
    · subst he
      have hset : dictSet ((k0, v0) :: rest) k0 v = (k0, v) :: rest := by
        simp [dictSet]
      rw [hset, dictKeys_cons, List.nodup_cons]
      exact ⟨hk0, hrest⟩
    · have hset : dictSet ((k0, v0) :: rest) k v = (k0, v0) :: dictSet rest k v := by
        simp [dictSet, he]
      rw [hset, dictKeys_cons, List.nodup_cons]
      refine ⟨?_, ih hrest⟩
      intro hmem
      rcases mem_dictKeys_dictSet rest k k0 v hmem with h1 | h1
      · exact he h1
      · exact hk0 h1

/-- Folding a step that only ever writes one fixed key preserves distinctness
of the keys. -/
theorem nodup_dictKeys_foldl {α β γ : Type} [DecidableEq α] (l : List γ)
    (g : List (α × β) → γ → List (α × β))
    (hg : ∀ cs r, (dictKeys cs).Nodup → (dictKeys (g cs r)).Nodup)
    (d : List (α × β)) (hd : (dictKeys d).Nodup) :
    (dictKeys (l.foldl g d)).Nodup := by
  induction l generalizing d with
  | nil => exact hd
  | cons r rest ih => rw [List.foldl_cons]; exact ih _ (hg d r hd)

/-- Closed form of the loop of Presentation.create: starting from accumulators
cs and ps, the credential handles are appended in entry order and the proof
entries are appended with indices counting on from the length of cs. -/
theorem foldl_presentStep (entries : List (PyObject × (AttrSel × PredSel)))
    (cs : List Nat) (ps : List CredentialProve) :
    entries.foldl presentStep (cs, ps) =
      (cs ++ entries.map (fun e => e.1.handle),
        ps ++ provesFrom cs.length entries) := by
  induction entries generalizing cs ps with
  | nil => simp [provesFrom]
  | cons e rest ih =>
    rw [List.foldl_cons]
    show rest.foldl presentStep
      (cs ++ [e.1.handle], ps ++ provesOf cs.length e) = _
    rw [ih]
    simp [provesFrom, List.append_assoc]

/-- The two lists forwarded to bindings.create_presentation: the handles of
the creds entries in order, and the proof entries indexed from zero. -/
theorem presentLists_eq (entries : List (PyObject × (AttrSel × PredSel))) :
    presentLists entries =
      (entries.map (fun e => e.1.handle), provesFrom 0 entries) := by
  rw [presentLists, foldl_presentStep]
  simp

/-- Membership in provesFrom: every proof entry comes from the entry at some
position i and carries index n + i. -/
theorem mem_provesFrom (n : Nat) (entries : List (PyObject × (AttrSel × PredSel)))
    (p : CredentialProve) :
    p ∈ provesFrom n entries ↔
      ∃ i e, entries[i]? = some e ∧ p ∈ provesOf (n + i) e := by
  induction entries generalizing n with
  | nil => simp [provesFrom]
  | cons e rest ih =>
    simp only [provesFrom, List.mem_append, ih]
    constructor
    · rintro (h | ⟨i, e1, hi, hp⟩)
      · exact ⟨0, e, by simp, by simpa using h⟩
      · exact ⟨i + 1, e1, by simpa using hi, by
          have : n + (i + 1) = n + 1 + i := by omega
          rw [this]; exact hp⟩
    · rintro ⟨i, e1, hi, hp⟩
      cases i with
      | zero =>
        left
        obtain rfl : e = e1 := by simpa using hi
        simpa using hp
      | succ i =>
        right
        refine ⟨i, e1, by simpa using hi, ?_⟩
        have : n + 1 + i = n + (i + 1) := by omega
        rw [this]; exact hp

/-- Every proof entry contributed by an entry handed index i carries exactly
that index. -/
theorem idx_of_mem_provesOf (i : Nat) (entry : PyObject × (AttrSel × PredSel))
    (p : CredentialProve) (h : p ∈ provesOf i entry) :
    CredentialProve.idx p = i := by
  simp only [provesOf, List.mem_append, List.mem_map] at h
  rcases h with ⟨a, _, rfl⟩ | ⟨a, _, rfl⟩ <;> rfl

/-! Claim theorems. -/

/-- Claim C1, evaluated at the failing input: Credential.from_json applied to
a serialized credential returns an object of class CredentialDefinition, not
Credential, so deserializing a serialized Credential does not yield an object
of the same entity type. -/
theorem claim1_credential_from_json_wrong_class :
    (Credential.from_json (bindingsK 7) "cred-json").cls =
        PyClass.CredentialDefinition ∧
    PyClass.CredentialDefinition ≠ PyClass.Credential :=
  ⟨rfl, by decide⟩

/-- Claim C2: every boundary constructor that accepts either a serialized
string or a live object is insensitive to the form: with strings that
deserialize to the given objects, the string call and the object call return
the same result, for CredentialDefinition.create, CredentialOffer.create,
CredentialRequest.create, Credential.create, Credential.process and
Presentation.create. -/
theorem claim2_str_or_object_equivalent (B : Bindings)
    (sS sCD sCDP sKP sCO sCR sCRM sMS sPR : String)
    (oS oCD oCDP oKP oCO oCR oCRM oMS oPR : PyObject)
    (hS : Schema.from_json B sS = oS)
    (hCD : CredentialDefinition.from_json B sCD = oCD)
    (hCDP : CredentialDefinitionPrivate.from_json B sCDP = oCDP)
    (hKP : KeyCorrectnessProof.from_json B sKP = oKP)
    (hCO : CredentialOffer.from_json B sCO = oCO)
    (hCR : CredentialRequest.from_json B sCR = oCR)
    (hCRM : CredentialRequestMetadata.from_json B sCRM = oCRM)
    (hMS : MasterSecret.from_json B sMS = oMS)
    (hPR : PresentationRequest.from_json B sPR = oPR)
    (origin_did signature_type schema_id prover_did master_secret_id : String)
    (tag : Option String) (support_revocation : Bool)
    (raw : List (String × String)) (enc : Option (List (String × String)))
    (self : PyObject) (pc : PresentCredentials)
    (lS lCD : List String) (olS olCD : List PyObject)
    (hlS : lS.map (Schema.from_json B) = olS)
    (hlCD : lCD.map (CredentialDefinition.from_json B) = olCD) :
    CredentialDefinition.create B origin_did (.inl sS) signature_type
        support_revocation tag =
      CredentialDefinition.create B origin_did (.inr oS) signature_type
        support_revocation tag ∧
    CredentialOffer.create B schema_id (.inl sCD) (.inl sKP) =
      CredentialOffer.create B schema_id (.inr oCD) (.inr oKP) ∧
    CredentialRequest.create B prover_did (.inl sCD) (.inl sMS)
        master_secret_id (.inl sCO) =
      CredentialRequest.create B prover_did (.inr oCD) (.inr oMS)
        master_secret_id (.inr oCO) ∧
    Credential.create B (.inl sCD) (.inl sCDP) (.inl sCO) (.inl sCR) raw enc =
      Credential.create B (.inr oCD) (.inr oCDP) (.inr oCO) (.inr oCR) raw enc ∧
    Credential.process B self (.inl sCRM) (.inl sMS) (.inl sCD) =
      Credential.process B self (.inr oCRM) (.inr oMS) (.inr oCD) ∧
    Presentation.create B (.inl sPR) pc (.inl sMS) (lS.map Sum.inl)
        (lCD.map Sum.inl) =
      Presentation.create B (.inr oPR) pc (.inr oMS) (olS.map Sum.inr)
        (olCD.map Sum.inr) := by
  subst hS hCD hCDP hKP hCO hCR hCRM hMS hPR hlS hlCD
  refine ⟨rfl, rfl, rfl, rfl, rfl, ?_⟩
  simp [Presentation.create, resolveWith, List.map_map, Function.comp_def]

/-- Witness for claim C2 at concrete inputs. -/
theorem claim2_witness :
    CredentialDefinition.create (bindingsK 3) "did" (.inl "s") "CL" true
        (some "t") =
      CredentialDefinition.create (bindingsK 3) "did"
        (.inr (Schema.from_json (bindingsK 3) "s")) "CL" true (some "t") :=
  (claim2_str_or_object_equivalent (bindingsK 3)
    "s" "s" "s" "s" "s" "s" "s" "s" "s"
    (Schema.from_json (bindingsK 3) "s")
    (CredentialDefinition.from_json (bindingsK 3) "s")
    (CredentialDefinitionPrivate.from_json (bindingsK 3) "s")
    (KeyCorrectnessProof.from_json (bindingsK 3) "s")
    (CredentialOffer.from_json (bindingsK 3) "s")
    (CredentialRequest.from_json (bindingsK 3) "s")
    (CredentialRequestMetadata.from_json (bindingsK 3) "s")
    (MasterSecret.from_json (bindingsK 3) "s")
    (PresentationRequest.from_json (bindingsK 3) "s")
    rfl rfl rfl rfl rfl rfl rfl rfl rfl
    "did" "CL" "sid" "pdid" "msid" (some "t") true [] none
    ⟨PyClass.Credential, 0⟩ PresentCredentials.empty
    ["a"] ["c"] [Schema.from_json (bindingsK 3) "a"]
    [CredentialDefinition.from_json (bindingsK 3) "c"] rfl rfl).1

/-- Claim C3: the identifier derivations are deterministic; two schemas
agreeing on issuer id, name and version have identical identifiers, and two
credential definitions agreeing on issuer id, schema id and tag have identical
identifiers, whatever their other fields. -/
theorem claim3_id_deterministic (s1 s2 : SchemaData) (c1 c2 : CredDefData)
    (hdid : s1.origin_did = s2.origin_did) (hname : s1.name = s2.name)
    (hver : s1.version = s2.version)
    (hcd : c1.origin_did = c2.origin_did) (hcs : c1.schema_id = c2.schema_id)
    (hct : c1.tag = c2.tag) :
    schema_get_id s1 = schema_get_id s2 ∧
    credential_definition_get_id c1 = credential_definition_get_id c2 := by
  unfold schema_get_id credential_definition_get_id
  rw [hdid, hname, hver, hcd, hcs, hct]
  exact ⟨rfl, rfl⟩

/-- Witness for claim C3: two schemas with the same defining fields but
different attribute lists and sequence numbers get the same identifier. -/
theorem claim3_witness :
    schema_get_id ⟨"did:sov:1", "degree", "1.0", ["name", "age"], none⟩ =
      schema_get_id ⟨"did:sov:1", "degree", "1.0", ["other"], some 9⟩ ∧
    credential_definition_get_id ⟨"did:sov:1", "sid", "tag"⟩ =
      credential_definition_get_id ⟨"did:sov:1", "sid", "tag"⟩ :=
  claim3_id_deterministic
    ⟨"did:sov:1", "degree", "1.0", ["name", "age"], none⟩
    ⟨"did:sov:1", "degree", "1.0", ["other"], some 9⟩
    ⟨"did:sov:1", "sid", "tag"⟩ ⟨"did:sov:1", "sid", "tag"⟩
    rfl rfl rfl rfl rfl rfl

/-- Claim C4: processing with a master secret different from the one of the
originating request fails with UnblindingError and never returns a
credential; a successful return forces matching metadata and master secret;
and a matching pair yields the fully unblinded credential with its attribute
values intact. -/
theorem claim4_process_binding (cred : CredentialData)
    (md : CredReqMetadataData) (ms : MasterSecretData) :
    (ms.value ≠ cred.bound_master_secret →
      process_credential_core cred md ms =
        Except.error CredxError.UnblindingError) ∧
    (∀ out, process_credential_core cred md ms = Except.ok out →
      md.blinding_factor = cred.bound_blinding_factor ∧
      ms.value = cred.bound_master_secret) ∧
    (md.blinding_factor = cred.bound_blinding_factor →
      ms.value = cred.bound_master_secret →
      process_credential_core cred md ms =
        Except.ok { cred with blinded := false }) := by
  unfold process_credential_core
  refine ⟨?_, ?_, ?_⟩
  · intro hne
    rw [if_neg]
    rintro ⟨-, h2⟩
    exact hne h2
  · intro out hout
    by_cases hc : md.blinding_factor = cred.bound_blinding_factor ∧
        ms.value = cred.bound_master_secret
    · exact hc
    · rw [if_neg hc] at hout
      cases hout
  · intro h1 h2
    rw [if_pos ⟨h1, h2⟩]

/-- Witness for claim C4: a mismatched master secret is rejected with
UnblindingError and the matching triple yields the unblinded credential. -/
theorem claim4_witness :
    process_credential_core ⟨5, 7, true, [("age", "28")]⟩ ⟨7, 1⟩ ⟨6⟩ =
        Except.error CredxError.UnblindingError ∧
    process_credential_core ⟨5, 7, true, [("age", "28")]⟩ ⟨7, 1⟩ ⟨5⟩ =
        Except.ok ⟨5, 7, false, [("age", "28")]⟩ :=
  ⟨(claim4_process_binding ⟨5, 7, true, [("age", "28")]⟩ ⟨7, 1⟩ ⟨6⟩).1
      (by decide),
   (claim4_process_binding ⟨5, 7, true, [("age", "28")]⟩ ⟨7, 1⟩ ⟨5⟩).2.2
      rfl rfl⟩

/-- Claim C5 counterexample: at a concrete input the receiver credential is
left unchanged by process (it still wraps its old handle) and the operation
yields a distinct new Credential object, so the signature is not unblinded in
place in the receiver. -/
theorem claim5_counterexample :
    (Credential.process (bindingsK 9) ⟨PyClass.Credential, 0⟩ (.inl "md")
        (.inl "ms") (.inl "cd")).1 = ⟨PyClass.Credential, 0⟩ ∧
    (Credential.process (bindingsK 9) ⟨PyClass.Credential, 0⟩ (.inl "md")
        (.inl "ms") (.inl "cd")).2 ≠ ⟨PyClass.Credential, 0⟩ :=
  ⟨rfl, by decide⟩

/-- Claim C5 amended: Credential.process leaves the receiver unchanged and
returns a new Credential object wrapping the handle that
bindings.process_credential produces from the receiver handle and the resolved
arguments. -/
theorem claim5_process_new_object (B : Bindings) (self : PyObject)
    (md ms cd : String ⊕ PyObject) :
    (Credential.process B self md ms cd).1 = self ∧
    (Credential.process B self md ms cd).2 =
      ⟨PyClass.Credential,
        B.process_credential self.handle
          (resolveWith (CredentialRequestMetadata.from_json B) md).handle
          (resolveWith (MasterSecret.from_json B) ms).handle
          (resolveWith (CredentialDefinition.from_json B) cd).handle none⟩ :=
  ⟨rfl, rfl⟩

/-- Claim C8: verification returns a boolean for every well-formed input; the
only raised failure is UnknownCredentialDefinition, raised exactly when some
referenced schema or credential definition was not supplied, and when all
references are supplied the result is the boolean proof outcome, so an
invalid proof gives the negative boolean and never an error. -/
theorem claim8_verify_error_discipline (pres : PresentationData)
    (sids cids : List String) :
    (∀ e, verify_presentation pres sids cids = Except.error e ↔
      (e = CredxError.UnknownCredentialDefinition ∧
        ¬((∀ i ∈ pres.referenced_schema_ids, i ∈ sids) ∧
          (∀ i ∈ pres.referenced_cred_def_ids, i ∈ cids)))) ∧
    ((∀ i ∈ pres.referenced_schema_ids, i ∈ sids) →
      (∀ i ∈ pres.referenced_cred_def_ids, i ∈ cids) →
      verify_presentation pres sids cids = Except.ok pres.proof_valid) := by
  unfold verify_presentation
  constructor
  · intro e
    by_cases hc : (∀ i ∈ pres.referenced_schema_ids, i ∈ sids) ∧
        (∀ i ∈ pres.referenced_cred_def_ids, i ∈ cids)
    · rw [if_pos hc]
      constructor
      · intro h
        simp at h
      · rintro ⟨-, hno⟩
        exact absurd hc hno
    · rw [if_neg hc]
      constructor
      · intro h
        injection h with h1
        exact ⟨h1.symm, hc⟩
      · rintro ⟨rfl, -⟩
        rfl
  · intro h1 h2
    rw [if_pos ⟨h1, h2⟩]

/-- Witness for claim C8: a presentation referencing an unsupplied schema
raises UnknownCredentialDefinition, and one with all references supplied but
an invalid proof returns the boolean false without an error. -/
theorem claim8_witness :
    verify_presentation ⟨["s1"], ["d1"], true⟩ [] ["d1"] =
        Except.error CredxError.UnknownCredentialDefinition ∧
    verify_presentation ⟨["s1"], ["d1"], false⟩ ["s1"] ["d1"] =
        Except.ok false :=
  ⟨((claim8_verify_error_discipline ⟨["s1"], ["d1"], true⟩ [] ["d1"]).1
      CredxError.UnknownCredentialDefinition).2 ⟨rfl, by simp⟩,
   (claim8_verify_error_discipline ⟨["s1"], ["d1"], false⟩ ["s1"] ["d1"]).2
      (by simp) (by simp)⟩

/-- Claim C6: in Presentation.create every selected credential is assigned
the index equal to its position in the credentials list forwarded to
bindings.create_presentation, every CredentialProve entry carries exactly the
index of the entry it was built from, and the caller order of the schemas and
credential definitions lists is preserved elementwise when forwarded. -/
theorem claim6_presentation_indices (B : Bindings)
    (pres_req ms : String ⊕ PyObject) (pc : PresentCredentials)
    (schemas cred_defs : List (String ⊕ PyObject)) :
    Presentation.create B pres_req pc ms schemas cred_defs =
      ⟨PyClass.Presentation,
        B.create_presentation
          (resolveWith (PresentationRequest.from_json B) pres_req).handle
          pc.self_attest
          (pc.creds.map (fun e => e.1.handle))
          (provesFrom 0 pc.creds)
          (resolveWith (MasterSecret.from_json B) ms).handle
          (schemas.map (fun s => (resolveWith (Schema.from_json B) s).handle))
          (cred_defs.map (fun c =>
            (resolveWith (CredentialDefinition.from_json B) c).handle))⟩ ∧
    (∀ p ∈ (presentLists pc.creds).2, ∃ i e, pc.creds[i]? = some e ∧
      p ∈ provesOf i e ∧ CredentialProve.idx p = i) := by
  constructor
  · simp only [Presentation.create, presentLists_eq]
  · intro p hp
    rw [presentLists_eq] at hp
    rcases (mem_provesFrom 0 pc.creds p).mp hp with ⟨i, e, hi, hpe⟩
    rw [Nat.zero_add] at hpe
    exact ⟨i, e, hi, hpe, idx_of_mem_provesOf i e p hpe⟩

/-- Witness for claim C6: with one selected credential carrying one attribute
referent, the single proof entry comes from position zero and carries index
zero. -/
theorem claim6_witness :
    ∃ i e,
      (⟨[(⟨PyClass.Credential, 4⟩, ([("a", (true, none))], []))], []⟩ :
          PresentCredentials).creds[i]? = some e ∧
      CredentialProve.attribute 0 "a" true none ∈ provesOf i e ∧
      CredentialProve.idx (CredentialProve.attribute 0 "a" true none) = i :=
  (claim6_presentation_indices (bindingsK 1) (.inl "p") (.inl "m")
    ⟨[(⟨PyClass.Credential, 4⟩, ([("a", (true, none))], []))], []⟩ [] []).2
    (CredentialProve.attribute 0 "a" true none) (by decide)

/-- Claim C7: the PresentCredentials calls are pure data accumulation:
add_self_attested changes only self_attest and only at the written keys, and
add_attributes and add_predicates change only the creds entry of the given
credential, leaving self_attest and every other credential entry unchanged. -/
theorem claim7_accumulation_frame (pc : PresentCredentials)
    (attest : List (String × String)) (cred other : PyObject)
    (referents : List String) (reveal : Bool) (ts : Option Int) (k : String)
    (hne : other ≠ cred) (hk : k ∉ attest.map Prod.fst) :
    (pc.add_self_attested attest).creds = pc.creds ∧
    dictGet (pc.add_self_attested attest).self_attest k =
      dictGet pc.self_attest k ∧
    (pc.add_attributes cred referents reveal ts).self_attest =
      pc.self_attest ∧
    (pc.add_predicates cred referents ts).self_attest = pc.self_attest ∧
    dictGet (pc.add_attributes cred referents reveal ts).creds other =
      dictGet pc.creds other ∧
    dictGet (pc.add_predicates cred referents ts).creds other =
      dictGet pc.creds other := by
  refine ⟨?_, ?_, ?_, ?_, ?_, ?_⟩
  · unfold PresentCredentials.add_self_attested
    split <;> rfl
  · unfold PresentCredentials.add_self_attested
    split
    · rfl
    · exact dictGet_foldl_frame attest k _ pc.self_attest
        (fun cs r hr => dictGet_dictSet_ne cs r.1 k r.2
          (fun hkr => hk (by rw [hkr]; exact List.mem_map_of_mem Prod.fst hr)))
  · unfold PresentCredentials.add_attributes
    split <;> rfl
  · unfold PresentCredentials.add_predicates
    split <;> rfl
  · unfold PresentCredentials.add_attributes
    split
    · rfl
    · refine (dictGet_foldl_frame referents other _ _
        (fun cs r hr => dictGet_dictSet_ne cs cred other _ hne)).trans ?_
      split
      · rfl
      · exact dictGet_dictSet_ne pc.creds cred other _ hne
  · unfold PresentCredentials.add_predicates
    split
    · rfl
    · refine (dictGet_foldl_frame referents other _ _
        (fun cs r hr => dictGet_dictSet_ne cs cred other _ hne)).trans ?_
      split
      · rfl
      · exact dictGet_dictSet_ne pc.creds cred other _ hne

/-- Witness for claim C7: adding an attribute referent for one credential
leaves the entry of a different credential unchanged. -/
theorem claim7_witness :
    dictGet (PresentCredentials.empty.add_attributes ⟨PyClass.Credential, 0⟩
        ["r"] true none).creds ⟨PyClass.Credential, 1⟩ =
      dictGet PresentCredentials.empty.creds ⟨PyClass.Credential, 1⟩ :=
  (claim7_accumulation_frame PresentCredentials.empty [("x", "1")]
    ⟨PyClass.Credential, 0⟩ ⟨PyClass.Credential, 1⟩ ["r"] true none "y"
    (by decide) (by decide)).2.2.2.2.1

/-- Claim C9: empty selections are no-ops: add_attributes and add_predicates
with an empty referents sequence and add_self_attested with an empty mapping
return the accumulator unchanged, with no entry created. -/
theorem claim9_empty_noop (pc : PresentCredentials) (cred : PyObject)
    (reveal : Bool) (ts : Option Int) :
    pc.add_attributes cred [] reveal ts = pc ∧
    pc.add_predicates cred [] ts = pc ∧
    pc.add_self_attested [] = pc :=
  ⟨rfl, rfl, rfl⟩

/-- Each accumulator call preserves distinctness of the credential keys. -/
theorem applyOp_nodup (pc : PresentCredentials) (op : PCOp)
    (h : (dictKeys pc.creds).Nodup) :
    (dictKeys (applyOp pc op).creds).Nodup := by
  cases op with
  | selfAtt a =>
    show (dictKeys (pc.add_self_attested a).creds).Nodup
    unfold PresentCredentials.add_self_attested
    split <;> exact h
  | attrs c r rv t =>
    show (dictKeys (pc.add_attributes c r rv t).creds).Nodup
    unfold PresentCredentials.add_attributes
    split
    · exact h
    · apply nodup_dictKeys_foldl
      · exact fun cs x hcs => nodup_dictKeys_dictSet cs c _ hcs
      · split
        · exact h
        · exact nodup_dictKeys_dictSet pc.creds c _ h
  | preds c r t =>
    show (dictKeys (pc.add_predicates c r t).creds).Nodup
    unfold PresentCredentials.add_predicates
    split
    · exact h
    · apply nodup_dictKeys_foldl
      · exact fun cs x hcs => nodup_dictKeys_dictSet cs c _ hcs
      · split
        · exact h
        · exact nodup_dictKeys_dictSet pc.creds c _ h

/-- A sequence of accumulator calls keeps the credential keys distinct. -/
theorem foldl_applyOp_nodup (ops : List PCOp) :
    ∀ pc : PresentCredentials, (dictKeys pc.creds).Nodup →
      (dictKeys (ops.foldl applyOp pc).creds).Nodup := by
  induction ops with
  | nil => exact fun pc h => h
  | cons op rest ih =>
    intro pc h
    rw [List.foldl_cons]
    exact ih _ (applyOp_nodup pc op h)

/-- In a dict with distinct keys, at most one entry has a given key. -/
theorem countP_key_le_one {α β : Type} [DecidableEq α] (d : List (α × β))
    (k : α) (h : (dictKeys d).Nodup) :
    d.countP (fun e => decide (e.1 = k)) ≤ 1 := by
  induction d with
  | nil => simp
  | cons e rest ih =>
    rw [dictKeys_cons, List.nodup_cons] at h
    obtain ⟨hk0, hrest⟩ := h
    rw [List.countP_cons]
    by_cases he : e.1 = k
    · have hz : rest.countP (fun x => decide (x.1 = k)) = 0 := by
        rw [List.countP_eq_zero]
        intro x hx
        simp only [decide_eq_true_eq]
        intro hxk
        apply hk0
        have hm : x.1 ∈ dictKeys rest := List.mem_map_of_mem Prod.fst hx
        rw [hxk, ← he] at hm
        exact hm
      simp [hz, he]
    · simpa [he] using ih hrest

/-- Claim C10: for an accumulator built by any sequence of add calls the
credential keys are pairwise distinct, the credentials list forwarded by
Presentation.create carries exactly one handle per entry, and no credential
owns more than one entry, so attributes and predicates added separately for
one credential share one entry and one index. -/
theorem claim10_one_handle_per_credential (ops : List PCOp) :
    (dictKeys (buildPC ops).creds).Nodup ∧
    (presentLists (buildPC ops).creds).1 =
      (buildPC ops).creds.map (fun e => e.1.handle) ∧
    ∀ cred : PyObject,
      (buildPC ops).creds.countP (fun e => decide (e.1 = cred)) ≤ 1 := by
  have hnd : (dictKeys (buildPC ops).creds).Nodup :=
    foldl_applyOp_nodup ops PresentCredentials.empty
      (by simp [PresentCredentials.empty, dictKeys])
  refine ⟨hnd, ?_, ?_⟩
  · rw [presentLists_eq]
  · exact fun cred => countP_key_le_one _ cred hnd
